import Mathlib

/-!
Verification development for the OpenSCAD language-support server
(translation and synchronization layer between an editor protocol and an
external source-analysis engine).

The document text is modelled as a `List Char`; machine strings that are
only carried around (messages, labels, uris) are Lean `String`s.
-/

namespace OpenScadLS

/-! ## Position translator (util: posToCodeLocation, and its inlined copies) -/

/-- The scanning loop of `posToCodeLocation`: starting from the full text and
a remaining-lines counter `linesToGo`, consume one character per iteration,
decrementing the counter on every line-terminator character, until the counter
reaches zero or the text is exhausted; the result is the number of characters
consumed. -/
def charsBeforeTheLine : List Char → Nat → Nat
  | _, 0 => 0
  | [], _ + 1 => 0
  | c :: rest, n + 1 =>
    if c = '\n' then charsBeforeTheLine rest n + 1
    else charsBeforeTheLine rest (n + 1) + 1

/-- Translation of an editor (line, column) pair to an absolute character
offset, as implemented in `posToCodeLocation` and its inlined copies in the
completion and definition handlers: scan for the start of the requested line,
add the column, and clamp the result to the last valid index when it reaches
or exceeds the text length. -/
def posToCodeLocation (text : List Char) (line col : Nat) : Nat :=
  let fullOffset := charsBeforeTheLine text line + col
  if fullOffset ≥ text.length then
    if text.length > 0 then text.length - 1 else 0
  else fullOffset

/-- Specification-side view of a text as its list of lines (line terminators
removed; a text with `k` newline characters has `k + 1` lines). -/
def splitLines : List Char → List (List Char)
  | [] => [[]]
  | c :: rest =>
    if c = '\n' then [] :: splitLines rest
    else
      match splitLines rest with
      | [] => [[c]]
      | l :: ls => (c :: l) :: ls

/-- Specification-side count of the characters preceding the start of a given
0-based line: the lengths of all earlier lines, counting each line terminator
as one character. -/
def lineStart (text : List Char) (line : Nat) : Nat :=
  (((splitLines text).take line).map (fun l => l.length + 1)).sum

theorem splitLines_ne_nil (text : List Char) : splitLines text ≠ [] := by
  cases text with
  | nil => simp [splitLines]
  | cons c rest =>
    simp only [splitLines]
    split
    · simp
    · cases h : splitLines rest <;> simp

theorem charsBeforeTheLine_eq_lineStart :
    ∀ (text : List Char) (n : Nat), n < (splitLines text).length →
      charsBeforeTheLine text n = lineStart text n := by
  intro text
  induction text with
  | nil =>
    intro n hn
    simp [splitLines] at hn
    subst hn
    simp [charsBeforeTheLine, lineStart]
  | cons c rest ih =>
    intro n hn
    cases n with
    | zero => simp [charsBeforeTheLine, lineStart]
    | succ m =>
      by_cases hc : c = '\n'
      · have hsplit : splitLines (c :: rest) = [] :: splitLines rest := by
          simp [splitLines, hc]
        rw [hsplit] at hn
        simp only [List.length_cons, Nat.succ_lt_succ_iff] at hn
        have := ih m hn
        have hL : lineStart (c :: rest) (m + 1) = lineStart rest m + 1 := by
          simp only [lineStart, hsplit, List.take_succ_cons, List.map_cons,
            List.sum_cons, List.length_nil]
          omega
        simp only [charsBeforeTheLine, if_pos hc, this, hL]
      · obtain ⟨l, ls, hrest⟩ : ∃ l ls, splitLines rest = l :: ls := by
          cases h : splitLines rest with
          | nil => exact absurd h (splitLines_ne_nil rest)
          | cons l ls => exact ⟨l, ls, rfl⟩
        have hsplit : splitLines (c :: rest) = (c :: l) :: ls := by
          simp [splitLines, hc, hrest]
        rw [hsplit] at hn
        simp only [List.length_cons, Nat.succ_lt_succ_iff] at hn
        have hn2 : m + 1 < (splitLines rest).length := by
          rw [hrest]; simpa using Nat.succ_lt_succ hn
        have := ih (m + 1) hn2
        have hL : lineStart (c :: rest) (m + 1) = lineStart rest (m + 1) + 1 := by
          simp only [lineStart, hsplit, hrest, List.take_succ_cons, List.map_cons,
            List.sum_cons, List.length_cons]
          omega
        simp only [charsBeforeTheLine, if_neg hc, this, hL]

/-- C1: for every document text and every line index within the document
(the column unconstrained, which covers every in-bounds column), the
position-to-offset translation returns the number of characters preceding
the position — the lengths of all earlier lines with each line terminator
counted as one character, plus the column — except that a computed value
reaching or exceeding the text length is clamped to `max 0 (length - 1)`. -/
theorem posToCodeLocation_counts_preceding_chars
    (text : List Char) (line col : Nat)
    (hline : line < (splitLines text).length) :
    posToCodeLocation text line col =
      if lineStart text line + col ≥ text.length
      then max 0 (text.length - 1)
      else lineStart text line + col := by
  unfold posToCodeLocation
  rw [charsBeforeTheLine_eq_lineStart text line hline]
  show (if lineStart text line + col ≥ text.length
        then if text.length > 0 then text.length - 1 else 0
        else lineStart text line + col) = _
  split_ifs <;> omega

/-- Witness for C1 on the concrete text "ab\ncd" at line 1, column 1
(offset 4) and at line 1, column 3 (computed 6, clamped to 4). -/
theorem posToCodeLocation_counts_preceding_chars_witness :
    (posToCodeLocation ['a', 'b', '\n', 'c', 'd'] 1 1 =
      if lineStart ['a', 'b', '\n', 'c', 'd'] 1 + 1 ≥
          (['a', 'b', '\n', 'c', 'd'] : List Char).length
      then max 0 ((['a', 'b', '\n', 'c', 'd'] : List Char).length - 1)
      else lineStart ['a', 'b', '\n', 'c', 'd'] 1 + 1) ∧
    (posToCodeLocation ['a', 'b', '\n', 'c', 'd'] 1 3 =
      if lineStart ['a', 'b', '\n', 'c', 'd'] 1 + 3 ≥
          (['a', 'b', '\n', 'c', 'd'] : List Char).length
      then max 0 ((['a', 'b', '\n', 'c', 'd'] : List Char).length - 1)
      else lineStart ['a', 'b', '\n', 'c', 'd'] 1 + 3) :=
  ⟨posToCodeLocation_counts_preceding_chars _ 1 1 (by decide),
   posToCodeLocation_counts_preceding_chars _ 1 3 (by decide)⟩

/-- C10: for every document text and every requested (line, column) pair —
including lines past the last line and columns past the end of their line —
the computed absolute offset is at most `max 0 (length - 1)`, so the
location handed to the engine never points past the end of the text. -/
theorem posToCodeLocation_never_past_end (text : List Char) (line col : Nat) :
    posToCodeLocation text line col ≤ max 0 (text.length - 1) := by
  unfold posToCodeLocation
  show (if charsBeforeTheLine text line + col ≥ text.length
        then if text.length > 0 then text.length - 1 else 0
        else charsBeforeTheLine text line + col) ≤ _
  split_ifs <;> omega

/-! ## Protocol data model (vscode-languageserver types used by the handlers) -/

/-- A 0-based protocol position (line, character). -/
structure Position where
  line : Nat
  character : Nat
deriving DecidableEq

/-- A protocol range; the protocol field `end` is a Lean keyword, so it is
named `endPos` here. -/
structure Range where
  start : Position
  endPos : Position
deriving DecidableEq

structure Location where
  uri : String
  range : Range
deriving DecidableEq

inductive DiagnosticSeverity where
  | Error
  | Warning
  | Information
  | Hint
deriving DecidableEq

structure Diagnostic where
  severity : DiagnosticSeverity
  range : Range
  message : String
  source : String
deriving DecidableEq

structure TextEdit where
  range : Range
  newText : String
deriving DecidableEq

structure MarkupContent where
  kind : String
  value : String
deriving DecidableEq

inductive CompletionItemKind where
  | Text
  | Function
  | Module
  | Variable
  | Keyword
  | Folder
  | File
deriving DecidableEq

structure CompletionItem where
  label : String
  documentation : Option MarkupContent
  kind : CompletionItemKind
  data : Nat
deriving DecidableEq

inductive SymbolKind where
  | Function
  | Module
  | Variable
deriving DecidableEq

inductive DocumentSymbol where
  | mk (name : String) (kind : SymbolKind) (fullRange nameRange : Range)
       (children : List DocumentSymbol)

/-! ## Engine-side data model (the opaque analysis handle and its values) -/

/-- The engine file object; only its path is observed by this layer. -/
structure CodeFile where
  path : String
deriving DecidableEq

/-- The engine coordinate value: owning file, absolute offset, line, column. -/
structure CodeLocation where
  file : CodeFile
  char : Nat
  line : Nat
  col : Nat

/-- An engine-reported analysis error: a location and a message. -/
structure CodeError where
  codeLocation : CodeLocation
  message : String

/-- The engine abstract syntax tree, observed by this layer only through the
file object at its root position (`ast.pos.file`). -/
structure AST where
  posFile : CodeFile

inductive ScadSymbolKind where
  | FUNCTION
  | MODULE
  | VARIABLE
deriving DecidableEq

inductive CompletionType where
  | FUNCTION
  | MODULE
  | VARIABLE
  | KEYWORD
  | DIRECTORY
  | FILE
deriving DecidableEq

/-- Tags of a parameter doc-comment entry (`param.tags`). -/
structure ParamAnnTags where
  positional : Bool
  named : Bool
  typeTags : Option (List String)

/-- A parameter doc-comment entry (the source class name ends in a token the
development avoids in identifiers, so it is shortened to `ParamAnn`). -/
structure ParamAnn where
  link : String
  tags : ParamAnnTags
  description : String

/-- A cross-reference doc-comment entry (shortened to `SeeAnn` for the same
reason as `ParamAnn`). -/
structure SeeAnn where
  link : String

/-- A doc-comment entry is either a parameter entry or a cross-reference
entry; the source distinguishes them with instanceof filters. -/
inductive DocAnn where
  | param (p : ParamAnn)
  | see (s : SeeAnn)

structure DocComment where
  documentationContent : String
  annots : List DocAnn

/-- A declaration as consumed by the doc renderer: its canonical re-printed
form (the result of `decl.accept(printer)` under the definitions-only engine
printer, an engine-produced string) and its optional doc comment. -/
structure Decl where
  printed : String
  docComment : Option DocComment

/-- One engine completion candidate. -/
structure CompletionSymbol where
  name : String
  type : CompletionType
  decl : Option Decl

/-- The location of a symbol declaration as returned by the engine; its file
reference may be absent (the handler checks `!defLoc.file`). -/
structure DeclLoc where
  file : Option CodeFile
  line : Nat
  col : Nat

/-- Engine-side line/column position of a declaration range. -/
structure SrcPos where
  line : Nat
  col : Nat

/-- Engine-side declaration range; the engine field `end` is a Lean keyword,
so it is named `stop` here. -/
structure SrcRange where
  start : SrcPos
  stop : SrcPos

/-- An engine declaration tree node as fed to the symbol builder callback:
name, kind, full range, name range, children. -/
inductive DeclTree where
  | node (name : String) (kind : ScadSymbolKind)
         (fullRange nameRange : SrcRange)
         (children : List DeclTree)

/-- The engine per-file analysis handle: an optional AST (absent when lexing
failed), the current error list, and the engine query methods observed by
this layer, modelled as function-valued fields of the opaque handle. -/
structure SolutionFile where
  ast : Option AST
  errors : List CodeError
  formatted : String
  completionsAt : CodeLocation → List CompletionSymbol
  declLocAt : CodeLocation → Option DeclLoc
  decls : List DeclTree

/-- An entry of the document store: uri and current full text. -/
structure Document where
  uri : String
  text : List Char

/-- The observable outcome of parsing a link with the platform URL class:
hostname and pathname on success, failure for a malformed link. The parser
itself is platform library code, so the handlers take it as a parameter. -/
structure URL where
  hostname : String
  pathname : String
deriving DecidableEq

/-- Suffix test on strings, the semantics of the platform `endsWith`,
expressed over the character lists so that concrete instances evaluate. -/
def strEndsWith (s suffix : String) : Bool :=
  List.isSuffixOf suffix.data s.data

/-- Prefix test on strings, the semantics of the platform `startsWith`. -/
def strStartsWith (s pre : String) : Bool :=
  List.isPrefixOf pre.data s.data

/-! ## Uri/path conversion (util) -/

def uriToPath (uri : String) : String :=
  if strStartsWith uri "file://" then String.mk (uri.data.drop 7) else uri

def pathToUri (path : String) : String :=
  "file://" ++ path

/-! ## Initialize handler -/

inductive TextDocumentSyncKind where
  | NoneKind
  | Full
  | Incremental
deriving DecidableEq

structure CompletionOptions where
  resolveProvider : Bool
deriving DecidableEq

structure ServerCapabilities where
  textDocumentSync : TextDocumentSyncKind
  documentFormattingProvider : Bool
  documentSymbolProvider : Bool
  completionProvider : Option CompletionOptions
  definitionProvider : Bool
  hoverProvider : Bool
  workspaceFoldersSupported : Bool
deriving DecidableEq

/-- The capabilities returned by the initialize handler, as a function of
whether the client advertised workspace-folder support. -/
def onInitialize (hasWorkspaceFolderCapability : Bool) : ServerCapabilities :=
  { textDocumentSync := TextDocumentSyncKind.Incremental
    documentFormattingProvider := true
    documentSymbolProvider := true
    completionProvider := some { resolveProvider := true }
    definitionProvider := true
    hoverProvider := true
    workspaceFoldersSupported := hasWorkspaceFolderCapability }

/-- C4 counterexample: the initialize handler does not advertise
full-document synchronization; the advertised kind is `Incremental`. -/
theorem onInitialize_sync_not_full :
    (onInitialize false).textDocumentSync ≠ TextDocumentSyncKind.Full := by
  decide

/-- C4 (amended): for every initialize request, the returned capabilities
advertise incremental text synchronization, together with formatting,
document symbols, completion with resolve, definition, and hover support. -/
theorem onInitialize_capabilities (hasWorkspaceFolders : Bool) :
    (onInitialize hasWorkspaceFolders).textDocumentSync =
        TextDocumentSyncKind.Incremental ∧
    (onInitialize hasWorkspaceFolders).documentFormattingProvider = true ∧
    (onInitialize hasWorkspaceFolders).documentSymbolProvider = true ∧
    (onInitialize hasWorkspaceFolders).completionProvider =
        some { resolveProvider := true } ∧
    (onInitialize hasWorkspaceFolders).definitionProvider = true ∧
    (onInitialize hasWorkspaceFolders).hoverProvider = true :=
  ⟨rfl, rfl, rfl, rfl, rfl, rfl⟩

/-! ## Formatting handler -/

/-- The formatting handler: refuse with an empty edit list when the handle
carries analysis errors; otherwise return one whole-document replace edit
carrying the engine formatted output. `positionAt` is the document store
offset-to-position conversion (external text-document library), taken as a
parameter. -/
def onDocumentFormatting (positionAt : List Char → Nat → Position)
    (fileOpt : Option SolutionFile) (docOpt : Option Document) :
    Except String (List TextEdit) :=
  match fileOpt with
  | none => .error "No file!"
  | some f =>
    if f.errors.length > 0 then .ok []
    else
      match docOpt with
      | none => .error "No document!"
      | some document =>
        .ok [{ range := { start := { line := 0, character := 0 },
                          endPos := positionAt document.text document.text.length },
               newText := f.formatted }]

/-- C5: for every formatting request on a registered file and open document,
a handle with one or more analysis errors yields the empty edit list, and a
handle with no analysis error yields exactly one replace edit spanning from
(0,0) to the position of the end of the current text, whose new text is the
engine formatted output. -/
theorem onDocumentFormatting_policy (positionAt : List Char → Nat → Position)
    (f : SolutionFile) (d : Document) :
    (f.errors ≠ [] →
      onDocumentFormatting positionAt (some f) (some d) = .ok []) ∧
    (f.errors = [] →
      onDocumentFormatting positionAt (some f) (some d) =
        .ok [{ range := { start := { line := 0, character := 0 },
                          endPos := positionAt d.text d.text.length },
               newText := f.formatted }]) := by
  constructor
  · intro h
    have hpos : f.errors.length > 0 := List.length_pos.mpr h
    simp [onDocumentFormatting, hpos]
  · intro h
    simp [onDocumentFormatting, h]

/-! ### Sample values used by the witnesses -/

def sampleCodeFile : CodeFile := { path := "/tmp/a.scad" }

def sampleError : CodeError :=
  { codeLocation := { file := sampleCodeFile, char := 0, line := 0, col := 0 }
    message := "parse error" }

/-- A sample handle with one analysis error and no AST. -/
def sampleFileErr : SolutionFile :=
  { ast := none
    errors := [sampleError]
    formatted := "x();\n"
    completionsAt := fun _ => []
    declLocAt := fun _ => none
    decls := [] }

/-- A sample handle with no analysis error. -/
def sampleFileOk : SolutionFile :=
  { sampleFileErr with ast := some { posFile := sampleCodeFile }, errors := [] }

def sampleDoc : Document := { uri := "file:///tmp/a.scad", text := ['x'] }

def samplePosAt : List Char → Nat → Position :=
  fun _ off => { line := 0, character := off }

/-- Witness for C5 at a concrete erroneous handle and a concrete clean one. -/
theorem onDocumentFormatting_policy_witness :
    onDocumentFormatting samplePosAt (some sampleFileErr) (some sampleDoc) =
      .ok [] ∧
    onDocumentFormatting samplePosAt (some sampleFileOk) (some sampleDoc) =
      .ok [{ range := { start := { line := 0, character := 0 },
                        endPos := samplePosAt sampleDoc.text sampleDoc.text.length },
             newText := sampleFileOk.formatted }] :=
  ⟨(onDocumentFormatting_policy samplePosAt sampleFileErr sampleDoc).1
      (by simp [sampleFileErr]),
   (onDocumentFormatting_policy samplePosAt sampleFileOk sampleDoc).2 rfl⟩

/-! ## Definition handler -/

/-- The CodeLocation built by the completion and definition handlers from the
cursor position: the AST root file, the translated absolute offset, and the
raw line/column. -/
def cursorLoc (a : AST) (text : List Char) (line col : Nat) : CodeLocation :=
  { file := a.posFile
    char := posToCodeLocation text line col
    line := line
    col := col }

/-- The definition handler: a missing document is a hard error; a handle that
is missing or has no AST is the hard error "File not opened."; otherwise the
engine is asked for the declaration location of the symbol at the translated
cursor location, a missing answer (or an answer without a file) becomes a
null result, and a full answer becomes a zero-width Location at the
declaration line/column in the declaration file converted to a file uri. -/
def onDefinition (docOpt : Option Document) (sfOpt : Option SolutionFile)
    (line col : Nat) : Except String (Option Location) :=
  match docOpt with
  | none => .error "No document!"
  | some document =>
    match sfOpt with
    | none => .error "File not opened."
    | some sf =>
      match sf.ast with
      | none => .error "File not opened."
      | some a =>
        let loc := cursorLoc a document.text line col
        match sf.declLocAt loc with
        | none => .ok none
        | some defLoc =>
          match defLoc.file with
          | none => .ok none
          | some file =>
            .ok (some { uri := pathToUri file.path
                        range := { start := { line := defLoc.line,
                                              character := defLoc.col }
                                   endPos := { line := defLoc.line,
                                               character := defLoc.col } } })

/-- C7: on an open document, a definition request with an AST resolves to
null (not an error) when the engine reports no symbol at the translated
cursor location; resolves to a Location whose uri is the declaration file
path converted into a file uri and whose range is zero-width at the
declaration line/column when the engine reports a declaration; and fails
with the hard error "File not opened." when the handle lacks an AST. -/
theorem onDefinition_spec (d : Document) (sf : SolutionFile) (line col : Nat) :
    (sf.ast = none →
      onDefinition (some d) (some sf) line col = .error "File not opened.") ∧
    (∀ a, sf.ast = some a →
      sf.declLocAt (cursorLoc a d.text line col) = none →
      onDefinition (some d) (some sf) line col = .ok none) ∧
    (∀ a defLoc file, sf.ast = some a →
      sf.declLocAt (cursorLoc a d.text line col) = some defLoc →
      defLoc.file = some file →
      onDefinition (some d) (some sf) line col =
        .ok (some { uri := pathToUri file.path
                    range := { start := { line := defLoc.line,
                                          character := defLoc.col }
                               endPos := { line := defLoc.line,
                                           character := defLoc.col } } }) ∧
      pathToUri file.path = "file://" ++ file.path) := by
  refine ⟨?_, ?_, ?_⟩
  · intro h
    simp [onDefinition, h]
  · intro a ha hd
    simp [onDefinition, ha, hd]
  · intro a defLoc file ha hd hf
    refine ⟨?_, rfl⟩
    simp [onDefinition, ha, hd, hf]

/-- A sample handle whose engine resolves every location to a declaration at
line 2, column 3 of the sample file. -/
def sampleFileDef : SolutionFile :=
  { sampleFileOk with
      declLocAt := fun _ =>
        some { file := some sampleCodeFile, line := 2, col := 3 } }

/-- Witness for C7: the three behaviors at concrete handles — no AST, no
resolvable symbol, and a resolved declaration. -/
theorem onDefinition_spec_witness :
    onDefinition (some sampleDoc) (some sampleFileErr) 0 0 =
      .error "File not opened." ∧
    onDefinition (some sampleDoc) (some sampleFileOk) 0 0 = .ok none ∧
    onDefinition (some sampleDoc) (some sampleFileDef) 0 0 =
      .ok (some { uri := pathToUri sampleCodeFile.path
                  range := { start := { line := 2, character := 3 }
                             endPos := { line := 2, character := 3 } } }) :=
  ⟨(onDefinition_spec sampleDoc sampleFileErr 0 0).1 rfl,
   (onDefinition_spec sampleDoc sampleFileOk 0 0).2.1
      { posFile := sampleCodeFile } rfl rfl,
   ((onDefinition_spec sampleDoc sampleFileDef 0 0).2.2
      { posFile := sampleCodeFile }
      { file := some sampleCodeFile, line := 2, col := 3 }
      sampleCodeFile rfl rfl rfl).1⟩

/-! ## Hover / doc renderer (declToMarkupDocs) -/

/-- The fenced signature block emitted for every declaration: the engine
printed form, trimmed, in a scad code fence followed by a rule. -/
def signatureBlock (decl : Decl) : String :=
  "```scad\n" ++ decl.printed.trim ++ "\n```\n---\n"

/-- The parameter entries of a doc comment, in source order (the instanceof
filter of the source). -/
def paramsOf : List DocAnn → List ParamAnn
  | [] => []
  | DocAnn.param p :: rest => p :: paramsOf rest
  | DocAnn.see _ :: rest => paramsOf rest

/-- The cross-reference entries of a doc comment, in source order. -/
def seesOf : List DocAnn → List SeeAnn
  | [] => []
  | DocAnn.param _ :: rest => seesOf rest
  | DocAnn.see s :: rest => s :: seesOf rest

/-- One bullet of the parameters section. The named tag overwrites the
positional tag when both are set, as in the source; absent type tags render
as the string "undefined" (the stringified undefined of the source template
literal). -/
def renderParam (p : ParamAnn) : String :=
  let label :=
    if p.tags.named then " *named*"
    else if p.tags.positional then " *positional*"
    else ""
  let typeStr :=
    match p.tags.typeTags with
    | some ts => String.intercalate ", " ts
    | none => "undefined"
  "\n* **`" ++ p.link ++ "`**" ++ label ++ " (" ++ typeStr ++ "): " ++
    p.description

/-- Rendering of one cross-reference entry. `parse` is the platform URL
parser (hostname/pathname on success, failure on a malformed link); the
four branches mirror the try/catch and if/else chain of the source. -/
def renderSee (parse : String → Option URL) (s : SeeAnn) : String :=
  match parse s.link with
  | some url =>
    if strEndsWith url.hostname "wikipedia.org" then
      "\n\n [See more on **Wikipedia**](" ++ s.link ++ ")"
    else if strEndsWith url.hostname "wikibooks.org" &&
        strStartsWith url.pathname "/wiki/OpenSCAD_User_Manual" then
      "\n\n [See more on the **OpenSCAD User Manual**](" ++ s.link ++ ")"
    else
      "\n **See also**: [" ++ s.link ++ "](" ++ s.link ++ ")"
  | none => "\n\n **See also**: " ++ s.link

/-- The rendered content up to and including the parameters section: the
signature block, the doc-comment body, and the bulleted parameters section
when at least one parameter entry exists. -/
def docsBeforeSees (decl : Decl) (dc : DocComment) : String :=
  let c1 := signatureBlock decl ++ dc.documentationContent
  let params := paramsOf dc.annots
  if params.length > 0 then
    c1 ++ "\n\n\n\nParameters:\n" ++ String.join (params.map renderParam)
  else c1

/-- The hover/doc renderer: the signature block alone for an undocumented
declaration; otherwise the signature block, doc body, parameters section,
and one rendered line per cross-reference entry. -/
def declToMarkupDocs (parse : String → Option URL) (decl : Decl) :
    MarkupContent :=
  match decl.docComment with
  | none => { kind := "markdown", value := signatureBlock decl }
  | some dc =>
    { kind := "markdown"
      value := docsBeforeSees decl dc ++
        String.join ((seesOf dc.annots).map (renderSee parse)) }

/-- C8: a declaration without a doc comment yields only the fenced signature
block; a cross-reference link whose parsed host ends in wikipedia.org
renders as the "See more on Wikipedia" line; a link whose parsed host ends
in wikibooks.org with the user-manual path renders as the "See more on the
OpenSCAD User Manual" line; any other well-formed link renders as a generic
labeled link; a malformed link renders as a plain-text fallback; and for a
documented declaration every cross-reference entry contributes its rendered
line to the hover value, which is always produced. -/
theorem declToMarkupDocs_spec (parse : String → Option URL) (decl : Decl) :
    (decl.docComment = none →
      (declToMarkupDocs parse decl).value = signatureBlock decl) ∧
    (∀ s url, parse s.link = some url →
      strEndsWith url.hostname "wikipedia.org" = true →
      renderSee parse s = "\n\n [See more on **Wikipedia**](" ++ s.link ++ ")") ∧
    (∀ s url, parse s.link = some url →
      strEndsWith url.hostname "wikipedia.org" = false →
      strEndsWith url.hostname "wikibooks.org" = true →
      strStartsWith url.pathname "/wiki/OpenSCAD_User_Manual" = true →
      renderSee parse s =
        "\n\n [See more on the **OpenSCAD User Manual**](" ++ s.link ++ ")") ∧
    (∀ s url, parse s.link = some url →
      strEndsWith url.hostname "wikipedia.org" = false →
      (strEndsWith url.hostname "wikibooks.org" &&
        strStartsWith url.pathname "/wiki/OpenSCAD_User_Manual") = false →
      renderSee parse s =
        "\n **See also**: [" ++ s.link ++ "](" ++ s.link ++ ")") ∧
    (∀ s, parse s.link = none →
      renderSee parse s = "\n\n **See also**: " ++ s.link) ∧
    (∀ dc, decl.docComment = some dc →
      (declToMarkupDocs parse decl).value =
        docsBeforeSees decl dc ++
          String.join ((seesOf dc.annots).map (renderSee parse))) := by
  refine ⟨?_, ?_, ?_, ?_, ?_, ?_⟩
  · intro h
    simp [declToMarkupDocs, h]
  · intro s url hp hw
    simp [renderSee, hp, hw]
  · intro s url hp hw hb hpath
    simp [renderSee, hp, hw, hb, hpath]
  · intro s url hp hw hcomb
    simp [renderSee, hp, hw, hcomb]
  · intro s hp
    simp [renderSee, hp]
  · intro dc h
    simp [declToMarkupDocs, h]

/-- Sample URL parser for the witness: three recognized links, everything
else malformed. -/
def sampleParse : String → Option URL :=
  fun l =>
    if l = "https://en.wikipedia.org/wiki/Torus" then
      some { hostname := "en.wikipedia.org", pathname := "/wiki/Torus" }
    else if l = "https://en.wikibooks.org/wiki/OpenSCAD_User_Manual/Primitives" then
      some { hostname := "en.wikibooks.org"
             pathname := "/wiki/OpenSCAD_User_Manual/Primitives" }
    else if l = "https://example.com/doc" then
      some { hostname := "example.com", pathname := "/doc" }
    else none

/-- A sample undocumented declaration. -/
def sampleDeclNoDoc : Decl := { printed := "module torus()", docComment := none }

/-- Witness for C8 at the concrete parser and concrete links for all five
branch behaviors. -/
theorem declToMarkupDocs_spec_witness :
    (declToMarkupDocs sampleParse sampleDeclNoDoc).value =
      signatureBlock sampleDeclNoDoc ∧
    renderSee sampleParse { link := "https://en.wikipedia.org/wiki/Torus" } =
      "\n\n [See more on **Wikipedia**](https://en.wikipedia.org/wiki/Torus)" ∧
    renderSee sampleParse
        { link := "https://en.wikibooks.org/wiki/OpenSCAD_User_Manual/Primitives" } =
      "\n\n [See more on the **OpenSCAD User Manual**](https://en.wikibooks.org/wiki/OpenSCAD_User_Manual/Primitives)" ∧
    renderSee sampleParse { link := "https://example.com/doc" } =
      "\n **See also**: [https://example.com/doc](https://example.com/doc)" ∧
    renderSee sampleParse { link := "::not a link::" } =
      "\n\n **See also**: ::not a link::" :=
  ⟨(declToMarkupDocs_spec sampleParse sampleDeclNoDoc).1 rfl,
   (declToMarkupDocs_spec sampleParse sampleDeclNoDoc).2.1
      { link := "https://en.wikipedia.org/wiki/Torus" }
      { hostname := "en.wikipedia.org", pathname := "/wiki/Torus" }
      (by decide) (by decide),
   (declToMarkupDocs_spec sampleParse sampleDeclNoDoc).2.2.1
      { link := "https://en.wikibooks.org/wiki/OpenSCAD_User_Manual/Primitives" }
      { hostname := "en.wikibooks.org"
        pathname := "/wiki/OpenSCAD_User_Manual/Primitives" }
      (by decide) (by decide) (by decide) (by decide),
   (declToMarkupDocs_spec sampleParse sampleDeclNoDoc).2.2.2.1
      { link := "https://example.com/doc" }
      { hostname := "example.com", pathname := "/doc" }
      (by decide) (by decide) (by decide),
   (declToMarkupDocs_spec sampleParse sampleDeclNoDoc).2.2.2.2.1
      { link := "::not a link::" } (by decide)⟩

/-! ## Completion handler -/

/-- The kind switch of the completion handler: the protocol item kind chosen
for each engine candidate kind (the Text default of the source is
unreachable because the switch covers every candidate kind). -/
def kindOfCompletionType : CompletionType → CompletionItemKind
  | CompletionType.FUNCTION => CompletionItemKind.Function
  | CompletionType.MODULE => CompletionItemKind.Module
  | CompletionType.VARIABLE => CompletionItemKind.Variable
  | CompletionType.KEYWORD => CompletionItemKind.Keyword
  | CompletionType.DIRECTORY => CompletionItemKind.Folder
  | CompletionType.FILE => CompletionItemKind.File

/-- The candidate kinds whose switch cases read the candidate declaration
(function, module, variable). -/
def declBacked : CompletionType → Bool
  | CompletionType.FUNCTION => true
  | CompletionType.MODULE => true
  | CompletionType.VARIABLE => true
  | _ => false

/-- The update of the `docs` variable of the completion handler, which is
declared outside the candidate callback and therefore persists from one
candidate to the next: a declaration-backed candidate with a declaration
overwrites it with freshly rendered documentation, every other candidate
leaves it unchanged. -/
def nextDocs (parse : String → Option URL) (docs : Option MarkupContent)
    (s : CompletionSymbol) : Option MarkupContent :=
  if declBacked s.type then
    match s.decl with
    | some d => some (declToMarkupDocs parse d)
    | none => docs
  else docs

/-- The candidate-to-item mapping of the completion handler: one item per
candidate in engine order, carrying the shared `docs` state, the mapped
kind, and the 1-based index as resolve data (`data := i + 1` where `i` is
the 0-based position). -/
def mapCompletions (parse : String → Option URL) :
    List CompletionSymbol → Option MarkupContent → Nat → List CompletionItem
  | [], _, _ => []
  | s :: rest, docs, i =>
    { label := s.name
      documentation := nextDocs parse docs s
      kind := kindOfCompletionType s.type
      data := i + 1 } ::
    mapCompletions parse rest (nextDocs parse docs s) (i + 1)

/-- The completion handler: a missing document is a hard error; a missing
handle or a handle without an AST yields the empty list; otherwise the
engine candidates at the translated cursor location are mapped to items. -/
def onCompletion (parse : String → Option URL) (docOpt : Option Document)
    (sfOpt : Option SolutionFile) (line col : Nat) :
    Except String (List CompletionItem) :=
  match docOpt with
  | none => .error "No document!"
  | some document =>
    match sfOpt with
    | none => .ok []
    | some sf =>
      match sf.ast with
      | none => .ok []
      | some a =>
        .ok (mapCompletions parse
          (sf.completionsAt (cursorLoc a document.text line col)) none 0)

theorem mapCompletions_length (parse : String → Option URL) :
    ∀ (ss : List CompletionSymbol) (docs : Option MarkupContent) (i : Nat),
      (mapCompletions parse ss docs i).length = ss.length := by
  intro ss
  induction ss with
  | nil => intro docs i; rfl
  | cons s0 rest ih =>
    intro docs i
    simp [mapCompletions, ih]

theorem mapCompletions_index (parse : String → Option URL) :
    ∀ (ss : List CompletionSymbol) (docs : Option MarkupContent) (i j : Nat)
      (s : CompletionSymbol), ss[j]? = some s →
      ∃ item, (mapCompletions parse ss docs i)[j]? = some item ∧
        item.label = s.name ∧
        item.data = i + j + 1 ∧
        item.kind = kindOfCompletionType s.type ∧
        (∀ dd, declBacked s.type = true → s.decl = some dd →
          item.documentation = some (declToMarkupDocs parse dd)) := by
  intro ss
  induction ss with
  | nil => intro docs i j s hs; simp at hs
  | cons s0 rest ih =>
    intro docs i j s hs
    cases j with
    | zero =>
      simp only [List.getElem?_cons_zero, Option.some.injEq] at hs
      subst hs
      refine ⟨{ label := s0.name
                documentation := nextDocs parse docs s0
                kind := kindOfCompletionType s0.type
                data := i + 1 }, ?_, rfl, rfl, rfl, ?_⟩
      · simp [mapCompletions]
      · intro dd hb hdd
        simp [nextDocs, hb, hdd]
    | succ j2 =>
      simp only [List.getElem?_cons_succ] at hs
      obtain ⟨item, hit, h1, h2, h3, h4⟩ :=
        ih (nextDocs parse docs s0) (i + 1) j2 s hs
      refine ⟨item, ?_, h1, ?_, h3, h4⟩
      · simpa [mapCompletions] using hit
      · rw [h2]; omega

/-- C6: on an open document, a completion request with no analysis handle or
no AST yields the empty list without an exception; with an AST the engine
candidates at the translated cursor location are mapped in engine order:
the list has one item per candidate, the item at 0-based position j carries
the candidate name and resolve data j + 1 (1-based, here stated with a
running start index i), its kind is the image of the candidate kind under
the switch mapping (function, module, variable, keyword, directory, file to
Function, Module, Variable, Keyword, Folder, File), and a
declaration-backed candidate carries the eagerly rendered documentation of
its declaration. -/
theorem onCompletion_spec (parse : String → Option URL) (d : Document)
    (sf : SolutionFile) (line col : Nat) :
    (onCompletion parse (some d) none line col = .ok []) ∧
    (sf.ast = none →
      onCompletion parse (some d) (some sf) line col = .ok []) ∧
    (∀ a, sf.ast = some a →
      onCompletion parse (some d) (some sf) line col =
        .ok (mapCompletions parse
          (sf.completionsAt (cursorLoc a d.text line col)) none 0)) ∧
    (∀ ss docs i, (mapCompletions parse ss docs i).length = ss.length) ∧
    (∀ ss docs i j s, ss[j]? = some s →
      ∃ item, (mapCompletions parse ss docs i)[j]? = some item ∧
        item.label = s.name ∧
        item.data = i + j + 1 ∧
        item.kind = kindOfCompletionType s.type ∧
        (∀ dd, declBacked s.type = true → s.decl = some dd →
          item.documentation = some (declToMarkupDocs parse dd))) ∧
    (kindOfCompletionType CompletionType.FUNCTION =
        CompletionItemKind.Function ∧
      kindOfCompletionType CompletionType.MODULE = CompletionItemKind.Module ∧
      kindOfCompletionType CompletionType.VARIABLE =
        CompletionItemKind.Variable ∧
      kindOfCompletionType CompletionType.KEYWORD =
        CompletionItemKind.Keyword ∧
      kindOfCompletionType CompletionType.DIRECTORY =
        CompletionItemKind.Folder ∧
      kindOfCompletionType CompletionType.FILE = CompletionItemKind.File) := by
  refine ⟨rfl, ?_, ?_, mapCompletions_length parse,
    mapCompletions_index parse, rfl, rfl, rfl, rfl, rfl, rfl⟩
  · intro h
    simp [onCompletion, h]
  · intro a ha
    simp [onCompletion, ha]

/-- Sample engine candidates: a declaration-backed module and a keyword. -/
def sampleSymbols : List CompletionSymbol :=
  [{ name := "cube", type := CompletionType.MODULE, decl := some sampleDeclNoDoc },
   { name := "if", type := CompletionType.KEYWORD, decl := none }]

/-- A sample handle whose engine reports `sampleSymbols` everywhere. -/
def sampleFileCompl : SolutionFile :=
  { sampleFileOk with completionsAt := fun _ => sampleSymbols }

/-- Witness for C6: the no-AST empty result, the mapped result on a concrete
handle, and the first mapped item carrying data 1, the Module kind, and the
rendered documentation of its declaration. -/
theorem onCompletion_spec_witness :
    onCompletion sampleParse (some sampleDoc) (some sampleFileErr) 0 0 =
      .ok [] ∧
    onCompletion sampleParse (some sampleDoc) (some sampleFileCompl) 0 0 =
      .ok (mapCompletions sampleParse
        (sampleFileCompl.completionsAt
          (cursorLoc { posFile := sampleCodeFile } sampleDoc.text 0 0)) none 0) ∧
    ((mapCompletions sampleParse sampleSymbols none 0)[0]?.map
        CompletionItem.data = some 1) ∧
    ((mapCompletions sampleParse sampleSymbols none 0)[0]?.map
        CompletionItem.kind = some CompletionItemKind.Module) ∧
    ((mapCompletions sampleParse sampleSymbols none 0)[0]?.map
        CompletionItem.documentation =
      some (some (declToMarkupDocs sampleParse sampleDeclNoDoc))) := by
  refine ⟨(onCompletion_spec sampleParse sampleDoc sampleFileErr 0 0).2.1 rfl,
    (onCompletion_spec sampleParse sampleDoc sampleFileCompl 0 0).2.2.1
      { posFile := sampleCodeFile } rfl, ?_, ?_, ?_⟩ <;>
  · obtain ⟨item, hit, hlab, hdata, hkind, hdoc⟩ :=
      (onCompletion_spec sampleParse sampleDoc sampleFileCompl 0 0).2.2.2.2.1
        sampleSymbols none 0 0
        { name := "cube", type := CompletionType.MODULE,
          decl := some sampleDeclNoDoc } rfl
    rw [hit]
    simp [hdata, hkind, hdoc _ rfl rfl, kindOfCompletionType]

/-! ## Keyed maps (Map objects of the source and the engine registry) -/

def lookupKey {α : Type} : List (String × α) → String → Option α
  | [], _ => none
  | (k, v) :: rest, key => if k = key then some v else lookupKey rest key

/-- Map.set: replace the entry when the key exists, append it otherwise. -/
def setKey {α : Type} : List (String × α) → String → α → List (String × α)
  | [], key, v => [(key, v)]
  | (k, w) :: rest, key, v =>
    if k = key then (key, v) :: rest else (k, w) :: setKey rest key v

/-- Map.delete: remove the entry for the key when it exists. -/
def eraseKey {α : Type} : List (String × α) → String → List (String × α)
  | [], _ => []
  | (k, w) :: rest, key => if k = key then rest else (k, w) :: eraseKey rest key

def countKey {α : Type} : List (String × α) → String → Nat
  | [], _ => 0
  | (k, _) :: rest, key => (if k = key then 1 else 0) + countKey rest key

theorem lookupKey_none_eraseKey {α : Type} :
    ∀ (m : List (String × α)) (k : String),
      lookupKey m k = none → eraseKey m k = m := by
  intro m
  induction m with
  | nil => intro k _; rfl
  | cons kv rest ih =>
    intro k h
    obtain ⟨k0, v0⟩ := kv
    by_cases hk : k0 = k
    · simp [lookupKey, hk] at h
    · simp [lookupKey, hk] at h
      simp [eraseKey, hk, ih k h]

theorem lookupKey_none_countKey {α : Type} :
    ∀ (m : List (String × α)) (k : String),
      lookupKey m k = none → countKey m k = 0 := by
  intro m
  induction m with
  | nil => intro k _; rfl
  | cons kv rest ih =>
    intro k h
    obtain ⟨k0, v0⟩ := kv
    by_cases hk : k0 = k
    · simp [lookupKey, hk] at h
    · simp [lookupKey, hk] at h
      simp [countKey, hk, ih k h]

theorem lookupKey_setKey {α : Type} :
    ∀ (m : List (String × α)) (k : String) (v : α),
      lookupKey (setKey m k v) k = some v := by
  intro m
  induction m with
  | nil => intro k v; simp [setKey, lookupKey]
  | cons kv rest ih =>
    intro k v
    obtain ⟨k0, v0⟩ := kv
    by_cases hk : k0 = k
    · simp [setKey, hk, lookupKey]
    · simp [setKey, hk, lookupKey, ih]

theorem countKey_setKey {α : Type} :
    ∀ (m : List (String × α)) (k : String) (v : α),
      countKey (setKey m k v) k =
        if countKey m k = 0 then 1 else countKey m k := by
  intro m
  induction m with
  | nil => intro k v; simp [setKey, countKey]
  | cons kv rest ih =>
    intro k v
    obtain ⟨k0, v0⟩ := kv
    by_cases hk : k0 = k
    · simp [setKey, hk, countKey]
    · simp only [setKey, if_neg hk, countKey, ih, if_neg hk]
      split <;> split <;> omega

/-! ## Document lifecycle and diagnostic publishing -/

/-- The per-document settings value. -/
structure ExampleSettings where
  maxNumberOfProblems : Nat
deriving DecidableEq

/-- The mutable server-side state relevant to the lifecycle handlers: the
document store (library-managed open buffers), the per-uri settings cache,
the engine registry of analysis handles keyed by path (modelled from the
spec state machine, the engine SolutionManager itself being external), and
the client's last published diagnostics per uri. -/
structure ServerState where
  documents : List (String × List Char)
  settings : List (String × ExampleSettings)
  registry : List (String × SolutionFile)
  client : List (String × List Diagnostic)

/-- Which engine notification the change handler sent. -/
inductive NotifyAction where
  | opened
  | changed
deriving DecidableEq

structure ChangeOutcome where
  state : ServerState
  action : NotifyAction
  published : Option (String × List Diagnostic)

/-- The diagnostic built for one engine error: error severity, a
single-point range at the position derived from the error absolute offset,
the error message, and the fixed source tag. -/
def mkDiagnostic (positionAt : List Char → Nat → Position) (text : List Char)
    (e : CodeError) : Diagnostic :=
  { severity := DiagnosticSeverity.Error
    range := { start := positionAt text e.codeLocation.char
               endPos := positionAt text e.codeLocation.char }
    message := e.message
    source := "openscad-language-support" }

/-- The content-change handler. `analyze` is the engine re-analysis of the
full new text (modelled from the spec: notifyNewFileOpened and
notifyFileChanged replay the complete buffer into the engine, which keeps
one handle per path and reanalyzes it; the engine itself is external). When
no handle is registered for the path the handler registers a new one and
publishes nothing; when a handle is registered the handler notifies the
change and publishes the complete diagnostic list for the uri, replacing
the client's prior set. -/
def onDidChangeContent (analyze : List Char → SolutionFile)
    (positionAt : List Char → Nat → Position) (st : ServerState)
    (uri : String) (text : List Char) : ChangeOutcome :=
  let path := uriToPath uri
  let st1 := { st with documents := setKey st.documents uri text }
  match lookupKey st.registry path with
  | none =>
    { state := { st1 with registry := setKey st.registry path (analyze text) }
      action := NotifyAction.opened
      published := none }
  | some _ =>
    let sf := analyze text
    let diags := sf.errors.map (mkDiagnostic positionAt text)
    { state := { st1 with registry := setKey st.registry path sf
                          client := setKey st.client uri diags }
      action := NotifyAction.changed
      published := some (uri, diags) }

/-- The close handler: the library drops the closed buffer from the document
store, the handler drops the cached settings for the uri and deregisters
the engine handle for the path (notifyFileClosed, modelled from the spec as
removal from the per-path registry). -/
def onDidClose (st : ServerState) (uri : String) : ServerState :=
  { st with
      documents := eraseKey st.documents uri
      settings := eraseKey st.settings uri
      registry := eraseKey st.registry (uriToPath uri) }

theorem onDidChangeContent_registry_of_none (analyze : List Char → SolutionFile)
    (positionAt : List Char → Nat → Position) (st : ServerState)
    (uri : String) (text : List Char)
    (h : lookupKey st.registry (uriToPath uri) = none) :
    (onDidChangeContent analyze positionAt st uri text).state.registry =
      setKey st.registry (uriToPath uri) (analyze text) := by
  simp [onDidChangeContent, h]

theorem onDidChangeContent_registry_of_some (analyze : List Char → SolutionFile)
    (positionAt : List Char → Nat → Position) (st : ServerState)
    (uri : String) (text : List Char) (sf : SolutionFile)
    (h : lookupKey st.registry (uriToPath uri) = some sf) :
    (onDidChangeContent analyze positionAt st uri text).state.registry =
      setKey st.registry (uriToPath uri) (analyze text) := by
  simp [onDidChangeContent, h]

/-- C2: after a change (or duplicate-open) notification for a uri whose path
is registered, the handler publishes for that uri the complete diagnostic
list with exactly one diagnostic per engine-reported error, each of error
severity with a single-point range (start equals end) at the position
derived from the error absolute offset, and the published list replaces the
client's prior set for that uri. -/
theorem onDidChangeContent_publishes (analyze : List Char → SolutionFile)
    (positionAt : List Char → Nat → Position) (st : ServerState)
    (uri : String) (text : List Char) (sf0 : SolutionFile)
    (hreg : lookupKey st.registry (uriToPath uri) = some sf0) :
    (onDidChangeContent analyze positionAt st uri text).published =
      some (uri, (analyze text).errors.map (mkDiagnostic positionAt text)) ∧
    lookupKey
        (onDidChangeContent analyze positionAt st uri text).state.client uri =
      some ((analyze text).errors.map (mkDiagnostic positionAt text)) ∧
    ((analyze text).errors.map (mkDiagnostic positionAt text)).length =
      (analyze text).errors.length ∧
    (∀ d ∈ (analyze text).errors.map (mkDiagnostic positionAt text),
      d.severity = DiagnosticSeverity.Error ∧ d.range.start = d.range.endPos) ∧
    (∀ (j : Nat) (e : CodeError), (analyze text).errors[j]? = some e →
      ((analyze text).errors.map (mkDiagnostic positionAt text))[j]? =
        some (mkDiagnostic positionAt text e) ∧
      (mkDiagnostic positionAt text e).range.start =
        positionAt text e.codeLocation.char) := by
  refine ⟨?_, ?_, List.length_map _ _, ?_, ?_⟩
  · simp [onDidChangeContent, hreg]
  · simp [onDidChangeContent, hreg, lookupKey_setKey]
  · intro d hd
    obtain ⟨e, _, he⟩ := List.mem_map.mp hd
    subst he
    exact ⟨rfl, rfl⟩
  · intro j e he
    refine ⟨?_, rfl⟩
    simp [List.getElem?_map, he]

/-- Witness state for C2: one registered handle at path "a". -/
def sampleStateReg : ServerState :=
  { documents := [("file://a", ['x'])]
    settings := []
    registry := [("a", sampleFileOk)]
    client := [] }

/-- A fixed engine answer used as the witness re-analysis result. -/
def sampleAnalyze : List Char → SolutionFile := fun _ => sampleFileErr

/-- Witness for C2 at the concrete registered state: after the change the
published set is the complete list built from the one analysis error. -/
theorem onDidChangeContent_publishes_witness :
    (onDidChangeContent sampleAnalyze samplePosAt sampleStateReg
        "file://a" ['y']).published =
      some ("file://a",
        (sampleAnalyze ['y']).errors.map (mkDiagnostic samplePosAt ['y'])) ∧
    lookupKey
        (onDidChangeContent sampleAnalyze samplePosAt sampleStateReg
          "file://a" ['y']).state.client "file://a" =
      some ((sampleAnalyze ['y']).errors.map (mkDiagnostic samplePosAt ['y'])) ∧
    ((sampleAnalyze ['y']).errors.map (mkDiagnostic samplePosAt ['y'])).length =
      (sampleAnalyze ['y']).errors.length :=
  have h := onDidChangeContent_publishes sampleAnalyze samplePosAt
    sampleStateReg "file://a" ['y'] sampleFileOk (by rfl)
  ⟨h.1, h.2.1, h.2.2.1⟩

/-- C9: the change handler registers a new engine handle exactly when no
handle is registered for the path (so the engine sees notifyNewFileOpened
only then); two successive change notifications for the same uri starting
from an unregistered path leave exactly one handle for that path; and a
close notification for a uri that was never opened (no buffer, no cached
settings, no registered handle) leaves the whole state unchanged. -/
theorem lifecycle_idempotent (analyze : List Char → SolutionFile)
    (positionAt : List Char → Nat → Position) (st : ServerState)
    (uri : String) (t1 t2 : List Char) :
    ((onDidChangeContent analyze positionAt st uri t1).action =
        NotifyAction.opened ↔
      lookupKey st.registry (uriToPath uri) = none) ∧
    (lookupKey st.registry (uriToPath uri) = none →
      countKey (onDidChangeContent analyze positionAt
          (onDidChangeContent analyze positionAt st uri t1).state
          uri t2).state.registry (uriToPath uri) = 1) ∧
    (lookupKey st.documents uri = none →
      lookupKey st.settings uri = none →
      lookupKey st.registry (uriToPath uri) = none →
      onDidClose st uri = st) := by
  refine ⟨?_, ?_, ?_⟩
  · cases h : lookupKey st.registry (uriToPath uri) with
    | none => simp [onDidChangeContent, h]
    | some sf => simp [onDidChangeContent, h]
  · intro h
    have h1 := onDidChangeContent_registry_of_none analyze positionAt st uri t1 h
    have h2 : lookupKey
        (onDidChangeContent analyze positionAt st uri t1).state.registry
        (uriToPath uri) = some (analyze t1) := by
      rw [h1]; exact lookupKey_setKey _ _ _
    have hc0 : countKey st.registry (uriToPath uri) = 0 :=
      lookupKey_none_countKey _ _ h
    have hc1 : countKey
        (onDidChangeContent analyze positionAt st uri t1).state.registry
        (uriToPath uri) = 1 := by
      rw [h1, countKey_setKey, hc0]
      simp
    rw [onDidChangeContent_registry_of_some analyze positionAt _ uri t2
      (analyze t1) h2]
    rw [countKey_setKey, hc1]
    simp
  · intro hd hs hr
    cases st with
    | mk documents settings registry client =>
      simp only [onDidClose] at *
      simp [lookupKey_none_eraseKey _ _ hd, lookupKey_none_eraseKey _ _ hs,
        lookupKey_none_eraseKey _ _ hr]

/-- The empty server state. -/
def sampleStateEmpty : ServerState :=
  { documents := [], settings := [], registry := [], client := [] }

/-- Witness for C9 at the empty state: the first change registers, the
second does not duplicate the handle, and a close of a never-opened uri is
the identity. -/
theorem lifecycle_idempotent_witness :
    ((onDidChangeContent sampleAnalyze samplePosAt sampleStateEmpty
        "file://a" ['x']).action = NotifyAction.opened ↔
      lookupKey sampleStateEmpty.registry (uriToPath "file://a") = none) ∧
    countKey (onDidChangeContent sampleAnalyze samplePosAt
        (onDidChangeContent sampleAnalyze samplePosAt sampleStateEmpty
          "file://a" ['x']).state "file://a" ['y']).state.registry
      (uriToPath "file://a") = 1 ∧
    onDidClose sampleStateEmpty "file://a" = sampleStateEmpty :=
  have h := lifecycle_idempotent sampleAnalyze samplePosAt sampleStateEmpty
    "file://a" ['x'] ['y']
  ⟨h.1, h.2.1 rfl, h.2.2 rfl rfl rfl⟩

/-! ## Document symbols -/

mutual
/-- Modelled from the spec: the recursive conversion performed by the engine
`SolutionFile.getSymbols` (external `openscad-parser` code, absent from
`src/`): each declaration is handed to the builder with its name, kind,
ranges, and recursively converted children. -/
def buildSymbol {T : Type}
    (builder : String → ScadSymbolKind → SrcRange → SrcRange → List T → T) :
    DeclTree → T
  | DeclTree.node name kind fullRange nameRange children =>
    builder name kind fullRange nameRange (buildSymbolList builder children)

def buildSymbolList {T : Type}
    (builder : String → ScadSymbolKind → SrcRange → SrcRange → List T → T) :
    List DeclTree → List T
  | [] => []
  | t :: ts => buildSymbol builder t :: buildSymbolList builder ts
end

/-- Modelled from the spec: the engine `SolutionFile.getSymbols` (external
`openscad-parser` code, absent from `src/`) returns an empty tree when the
handle carries any analysis error, and otherwise converts every declaration
through the builder. -/
def getSymbols {T : Type} (errors : List CodeError) (decls : List DeclTree)
    (builder : String → ScadSymbolKind → SrcRange → SrcRange → List T → T) :
    List T :=
  if errors.length > 0 then [] else buildSymbolList builder decls

/-- The builder supplied by the document-symbol handler: map the engine
declaration kind to the protocol symbol kind and build a protocol symbol
with converted full range and name range. -/
def lspSymbolBuilder (name : String) (kind : ScadSymbolKind)
    (fullRange nameRange : SrcRange) (children : List DocumentSymbol) :
    DocumentSymbol :=
  DocumentSymbol.mk name
    (match kind with
     | ScadSymbolKind.FUNCTION => SymbolKind.Function
     | ScadSymbolKind.MODULE => SymbolKind.Module
     | ScadSymbolKind.VARIABLE => SymbolKind.Variable)
    { start := { line := fullRange.start.line, character := fullRange.start.col }
      endPos := { line := fullRange.stop.line, character := fullRange.stop.col } }
    { start := { line := nameRange.start.line, character := nameRange.start.col }
      endPos := { line := nameRange.stop.line, character := nameRange.stop.col } }
    children

/-- The document-symbol handler: a missing handle is a hard error; otherwise
the engine symbol tree is built with the protocol builder. The engine
declaration list is passed alongside the handle. -/
def onDocumentSymbol (sfOpt : Option SolutionFile) (decls : List DeclTree) :
    Except String (List DocumentSymbol) :=
  match sfOpt with
  | none => .error "No file!"
  | some sf => .ok (getSymbols sf.errors decls lspSymbolBuilder)

/-- C3: a document-symbol request on a file whose handle carries at least
one analysis error returns the empty tree. -/
theorem onDocumentSymbol_empty_on_errors (sf : SolutionFile)
    (decls : List DeclTree) (h : sf.errors ≠ []) :
    onDocumentSymbol (some sf) decls = .ok [] := by
  have hpos : sf.errors.length > 0 := List.length_pos.mpr h
  simp [onDocumentSymbol, getSymbols, hpos]

/-- A sample declaration tree with one function declaration. -/
def sampleDecls : List DeclTree :=
  [DeclTree.node "f" ScadSymbolKind.FUNCTION
    { start := { line := 0, col := 0 }, stop := { line := 0, col := 10 } }
    { start := { line := 0, col := 9 }, stop := { line := 0, col := 10 } }
    []]

/-- Witness for C3: an erroneous handle with a nonempty declaration list
still yields the empty tree. -/
theorem onDocumentSymbol_empty_on_errors_witness :
    onDocumentSymbol (some sampleFileErr) sampleDecls = .ok [] :=
  onDocumentSymbol_empty_on_errors sampleFileErr sampleDecls
    (by simp [sampleFileErr])

end OpenScadLS
